import Mathlib

/-!
Verification development for the diesel CLI migration-orchestration layer
(src/diesel_cli/src/main.rs).

The Rust source is shallowly embedded: paths are lists of components,
filesystem and database effects are explicit state passing, the external
collaborator services (migration execution, schema rendering, configuration
loading) are abstract parameters, mirroring the narrow interfaces the source
calls through.  Each embedded definition keeps the name of the source
function it translates.
-/

set_option maxRecDepth 4096

/-- A filesystem path, modelled as its list of name components
(an absolute path's leading root is implicit in the model that uses
plain string components; the relativizer uses an explicit component type). -/
abbrev PathS := List String

/- ### VersionAllocator (src/diesel_cli/src/main.rs, migration_version /
   run_migration_command "generate" arm) -/

/-- A UTC wall-clock instant, as the six fields the timestamp format prints. -/
structure UtcTime where
  year : Nat
  month : Nat
  day : Nat
  hour : Nat
  minute : Nat
  second : Nat

/-- Modelled from the spec: the format constant TIMESTAMP_FORMAT
("%Y%m%d%H%M%S") and chrono's formatter live in the migrations_internals /
chrono crates, outside src/; per the spec the default version is the current
UTC timestamp rendered as the fixed-width, lexicographically sortable string
YYYYMMDDHHMMSS (4-digit zero-padded year, 2-digit zero-padded fields). -/
def format_timestamp (t : UtcTime) : String :=
  String.mk
    [Nat.digitChar (t.year / 1000 % 10), Nat.digitChar (t.year / 100 % 10),
     Nat.digitChar (t.year / 10 % 10), Nat.digitChar (t.year % 10),
     Nat.digitChar (t.month / 10 % 10), Nat.digitChar (t.month % 10),
     Nat.digitChar (t.day / 10 % 10), Nat.digitChar (t.day % 10),
     Nat.digitChar (t.hour / 10 % 10), Nat.digitChar (t.hour % 10),
     Nat.digitChar (t.minute / 10 % 10), Nat.digitChar (t.minute % 10),
     Nat.digitChar (t.second / 10 % 10), Nat.digitChar (t.second % 10)]

/-- Embeds `migration_version` (main.rs lines 164-169): the explicit
MIGRATION_VERSION argument verbatim when supplied, otherwise the formatted
current UTC time. -/
def migration_version (explicit : Option String) (now : UtcTime) : String :=
  match explicit with
  | some s => s
  | none => format_timestamp now

/-- Embeds the folder-name composition in the "generate" arm
(main.rs line 120): format!("{}_{}", version, migration_name). -/
def versioned_name (version migration_name : String) : String :=
  version ++ "_" ++ migration_name

/-- Boolean check that every character of a string is an ASCII digit. -/
def allDigits (s : String) : Bool := s.data.all Char.isDigit

/- ### Command dispatch traces (run_migration_command, run_database_command) -/

/-- The externally observable calls a command handler makes, in order. -/
inductive CliEvent where
  | resolveMigrationsDir
  | runPendingMigrations
  | revertLatestMigration
  | redoLatestMigration
  | markMigrationsList
  | anyPendingCheck
  | generateMigrationFiles
  | setupDatabase
  | resetDatabase
  | dropDatabase
  | schemaSyncGuard
deriving DecidableEq, Repr

/-- The subcommands of the `migration` command family. -/
inductive MigrationSubcommand where
  | run
  | revert
  | redo
  | list
  | pending
  | generate
deriving DecidableEq, Repr

/-- The subcommands of the `database` command family. -/
inductive DatabaseSubcommand where
  | setup
  | reset
  | drop
deriving DecidableEq, Repr

/-- Embeds the event order of `run_migration_command` (main.rs lines 62-138):
each arm resolves the migrations directory, delegates to the external
migration-execution service, and (for run/revert/redo) calls
`regenerate_schema_if_file_specified` afterwards.  `execOk` models whether
the execution call succeeded; on failure the `?` operator (resp. the
process-exiting error handler inside redo) returns before the guard runs. -/
def run_migration_command (cmd : MigrationSubcommand) (execOk : Bool) :
    List CliEvent :=
  match cmd with
  | .run =>
    if execOk then
      [.resolveMigrationsDir, .runPendingMigrations, .schemaSyncGuard]
    else [.resolveMigrationsDir, .runPendingMigrations]
  | .revert =>
    if execOk then
      [.resolveMigrationsDir, .revertLatestMigration, .schemaSyncGuard]
    else [.resolveMigrationsDir, .revertLatestMigration]
  | .redo =>
    if execOk then
      [.resolveMigrationsDir, .redoLatestMigration, .schemaSyncGuard]
    else [.resolveMigrationsDir, .redoLatestMigration]
  | .list => [.resolveMigrationsDir, .markMigrationsList]
  | .pending => [.resolveMigrationsDir, .anyPendingCheck]
  | .generate => [.resolveMigrationsDir, .generateMigrationFiles]

/-- Embeds the event order of `run_database_command` (main.rs lines 265-280):
`setup` resolves the directory and calls the setup service with no schema
guard; `reset` calls the reset service and then the guard; `drop` only calls
the drop service. -/
def run_database_command (cmd : DatabaseSubcommand) (execOk : Bool) :
    List CliEvent :=
  match cmd with
  | .setup => [.resolveMigrationsDir, .setupDatabase]
  | .reset =>
    if execOk then [.resolveMigrationsDir, .resetDatabase, .schemaSyncGuard]
    else [.resolveMigrationsDir, .resetDatabase]
  | .drop => [.dropDatabase]

/- ### RedoEngine (redo_latest_migration, should_redo_migration_in_transaction) -/

/-- The closed set of database backends the CLI is built for (spec section 9:
model backends as a closed, tagged set rather than runtime type probing). -/
inductive Backend where
  | postgres
  | sqlite
  | mysql
deriving DecidableEq, Repr

/-- Embeds `should_redo_migration_in_transaction` (main.rs lines 351-354,
the mysql-featured build): true unless the connection is the MySQL one. -/
def should_redo_migration_in_transaction (t : Backend) : Bool :=
  !(t == Backend.mysql)

/-- An opaque migration version identifier. -/
abbrev MigVersion := String

/-- Errors propagated from the external migration-execution service. -/
abbrev RedoError := String

/-- The external migration-execution service (spec section 6), over an
abstract database-state type: each call returns its result together with the
database state after the call. -/
structure ExecService (σ : Type) where
  revertLatest : σ → Except RedoError MigVersion × σ
  runMigrationWithVersion : MigVersion → σ → Except RedoError Unit × σ

/-- Embeds the `migration_inner` closure of `redo_latest_migration`
(main.rs lines 333-342): revert the latest migration, capture the reverted
version, and run exactly that version again. -/
def migration_inner {σ : Type} (svc : ExecService σ) (db : σ) :
    Except RedoError Unit × σ :=
  match svc.revertLatest db with
  | (.error e, db1) => (.error e, db1)
  | (.ok reverted_version, db1) =>
    svc.runMigrationWithVersion reverted_version db1

/-- The transaction wrapper of diesel's Connection (external crate, modelled
from its documented contract, which the spec restates): run the body; commit
(keep the new state) on success, roll back to the entry state on error. -/
def transaction {σ α ε : Type} (f : σ → Except ε α × σ) (db : σ) :
    Except ε α × σ :=
  match f db with
  | (.ok a, db') => (.ok a, db')
  | (.error e, _) => (.error e, db)

/-- Embeds `redo_latest_migration` (main.rs lines 329-349): wrap the
revert+reapply composition in one transaction when the backend supports it,
otherwise run the two calls directly. -/
def redo_latest_migration {σ : Type} (svc : ExecService σ) (backend : Backend)
    (db : σ) : Except RedoError Unit × σ :=
  if should_redo_migration_in_transaction backend then
    transaction (migration_inner svc) db
  else
    migration_inner svc db

/- ### SchemaSyncGuard (regenerate_schema_if_file_specified) -/

/-- A byte sequence: the rendered schema snapshot / a file's content. -/
abbrev ByteSeq := List Nat

/-- The print-schema sub-record of the loaded configuration (spec section 3).
Only the `file` field steers the guard's control flow; the remaining
sub-config fields are passed through opaquely to the rendering service. -/
structure PrintSchemaCfg where
  file : Option PathS
deriving DecidableEq, Repr

/-- The loaded project configuration, as the guard reads it. -/
structure Config where
  printSchema : PrintSchemaCfg
deriving DecidableEq, Repr

/-- The filesystem state the guard touches: file contents (newest entry for a
path shadows older ones) and the set of directories created so far. -/
structure SchemaFs where
  files : List (PathS × ByteSeq)
  dirs : List PathS
deriving DecidableEq, Repr

/-- Look a file's current content up (File::open + read_to_end). -/
def lookupFile (fs : SchemaFs) (p : PathS) : Option ByteSeq :=
  (fs.files.find? (fun e => e.1 == p)).map (·.2)

/-- fs::File::create — creates or truncates the file. -/
def writeFile (fs : SchemaFs) (p : PathS) (content : ByteSeq) : SchemaFs :=
  { fs with files := (p, content) :: fs.files }

/-- fs::create_dir_all on the parent of the target file. -/
def create_dir_all (fs : SchemaFs) (p : PathS) : SchemaFs :=
  { fs with dirs := p :: fs.dirs }

/-- Path::parent, on plain component lists. -/
def parentDirOf : PathS → Option PathS
  | [] => none
  | ps => some ps.dropLast

/-- The error kinds `regenerate_schema_if_file_specified` can surface. -/
inductive SchemaError where
  | ioError (p : PathS)
  | renderError
  | schemaOutOfSync (p : PathS)
deriving DecidableEq, Repr

/-- Embeds `regenerate_schema_if_file_specified` (main.rs lines 437-473).
The external schema-rendering service is the `render` parameter (spec
section 6: renderSchema(connectionString, printSchemaConfig) -> bytes),
covering both run_print_schema-into-a-buffer and output_schema.  With no
configured file the guard is a no-op.  Otherwise the target's parent
directories are created, then in locked mode a fresh snapshot is rendered
into memory, the on-disk file is read fully and the two are byte-compared
(no write ever happens); in unlocked mode the file is created (truncating)
and the rendered snapshot is written into it. -/
def regenerate_schema_if_file_specified (cfg : Config) (locked : Bool)
    (render : Except SchemaError ByteSeq) (fs : SchemaFs) :
    Except SchemaError Unit × SchemaFs :=
  match cfg.printSchema.file with
  | none => (.ok (), fs)
  | some path =>
    let fs1 := match parentDirOf path with
      | some parent => create_dir_all fs parent
      | none => fs
    if locked then
      match render with
      | .error e => (.error e, fs1)
      | .ok buf =>
        match lookupFile fs1 path with
        | none => (.error (.ioError path), fs1)
        | some old_buf =>
          if buf == old_buf then (.ok (), fs1)
          else (.error (.schemaOutOfSync path), fs1)
    else
      let fs2 := writeFile fs1 path []
      match render with
      | .error e => (.error e, fs2)
      | .ok schema => (.ok (), writeFile fs2 path schema)

/- ### DirectoryLocator (migrations_dir_from_cli, migrations_dir) -/

/-- Errors of the directory-resolution cascade. -/
inductive MigError where
  | directoryNotFound
deriving DecidableEq, Repr

/-- A directory entry as fs::read_dir yields it: a name and whether its
file_type is a regular file. -/
structure DirEntry where
  name : String
  isFile : Bool
deriving DecidableEq, Repr

/-- The slice of filesystem state the locator's cleanup touches, for the
resolved directory: the readable entries (none models a read_dir error) and
whether a remove_file call would succeed. -/
structure MigFs where
  readDirEntries : Option (List DirEntry)
  removeOk : Bool
deriving DecidableEq, Repr

/-- The resolved inputs of one invocation (spec section 3,
InvocationContext): the chain of per-subcommand-level MIGRATION_DIRECTORY
arguments from the level where resolution starts down to the innermost
subcommand, the MIGRATION_DIRECTORY environment variable, the
migrations_directory field of the loaded configuration (Config::read lives
in config.rs, outside src/; per the spec it is an optional path field), and
the outcome of the external fallback search
(migrations::find_migrations_directory). -/
structure MigCtx where
  cliChain : List (Option PathS)
  envDir : Option PathS
  configDir : Option PathS
  fallback : Except MigError PathS

instance {ε α : Type} [DecidableEq ε] [DecidableEq α] :
    DecidableEq (Except ε α) := fun x y =>
  match x, y with
  | .ok a, .ok b =>
    if h : a = b then .isTrue (by rw [h])
    else .isFalse (fun he => h (by injection he))
  | .ok _, .error _ => .isFalse (fun he => Except.noConfusion he)
  | .error _, .ok _ => .isFalse (fun he => Except.noConfusion he)
  | .error e, .error f =>
    if h : e = f then .isTrue (by rw [h])
    else .isFalse (fun he => h (by injection he))

/-- The observable outcome of `migrations_dir`: the returned directory or
error, whether a legacy .gitkeep file was deleted, and the warnings printed. -/
structure ResolveResult where
  result : Except MigError PathS
  deletedGitkeep : Bool
  warnings : List String
deriving DecidableEq, Repr

/-- Embeds `migrations_dir_from_cli` (main.rs lines 171-181): take this
level's MIGRATION_DIRECTORY value, or else recurse into the invoked
subcommand (the next, deeper chain element). -/
def migrations_dir_from_cli : List (Option PathS) → Option PathS
  | [] => none
  | a :: rest => a.orElse (fun _ => migrations_dir_from_cli rest)

/-- Embeds `migrations_dir` (main.rs lines 193-228): CLI argument, or else
the environment variable, or else the config field; on a hit, best-effort
deletion of a legacy `.gitkeep` file (a deletion failure only prints a
warning), then return the directory; with no hit, defer to the external
fallback search. -/
def migrations_dir (ctx : MigCtx) (fs : MigFs) : ResolveResult :=
  let m := ((migrations_dir_from_cli ctx.cliChain).orElse
    (fun _ => ctx.envDir)).orElse (fun _ => ctx.configDir)
  match m with
  | some dir =>
    match fs.readDirEntries with
    | some entries =>
      match entries.find? (fun e => e.isFile && e.name == ".gitkeep") with
      | some _ =>
        if fs.removeOk then ⟨.ok dir, true, []⟩
        else ⟨.ok dir, false, ["WARNING: Unable to delete existing migrations/.gitkeep"]⟩
      | none => ⟨.ok dir, false, []⟩
    | none => ⟨.ok dir, false, []⟩
  | none => ⟨ctx.fallback, false, []⟩

/-- Definition following the claim's words (C3): the explicit CLI directory
is the one supplied for this (innermost) subcommand, or inherited from the
innermost parent subcommand that specifies one — i.e. the deepest populated
chain element wins. -/
def claimed_cli_dir (chain : List (Option PathS)) : Option PathS :=
  migrations_dir_from_cli chain.reverse

/- ### Project-root search (search_for_directory_containing_file,
   find_project_root, create_migrations_dir) -/

/-- The database-error kind of the setup flow. -/
inductive DbError where
  | projectRootNotFound (p : PathS)
deriving DecidableEq, Repr

/-- A directory path for the upward search, as its components listed
innermost-first (head = deepest directory name, [] = the filesystem root),
so that Path::parent is List.tail and path.join(f) is f :: path. -/
abbrev UpPath := List String

/-- The filesystem view the upward search consults: which paths name a
regular file. -/
structure RootFs where
  isFile : UpPath → Bool

/-- Embeds `search_for_directory_containing_file` (main.rs lines 315-325):
return the given directory when it holds the marker file, otherwise recurse
into the parent; at a directory with no parent, or when the recursion fails,
fail with ProjectRootNotFound carrying the current directory. -/
def search_for_directory_containing_file (fs : RootFs) (path : UpPath)
    (file : String) : Except DbError UpPath :=
  if fs.isFile (file :: path) then .ok path
  else
    match path with
    | [] => .error (.projectRootNotFound [])
    | c :: parent =>
      match search_for_directory_containing_file fs parent file with
      | .ok root => .ok root
      | .error _ => .error (.projectRootNotFound (c :: parent))

/-- Embeds `find_project_root` (main.rs lines 307-311): search upward for
diesel.toml, and only if that fails, search upward for Cargo.toml. -/
def find_project_root (fs : RootFs) (cwd : UpPath) : Except DbError UpPath :=
  match search_for_directory_containing_file fs cwd "diesel.toml" with
  | .ok root => .ok root
  | .error _ => search_for_directory_containing_file fs cwd "Cargo.toml"

/-- Embeds `create_migrations_dir` (main.rs lines 239-252): take the
cascade's directory when it resolves, otherwise fall back to
project-root/migrations (directory creation itself is an effect outside the
resolution logic the claims are about).  The cascade outcome carries an
unrelated path type, so only its success/failure and payload matter here. -/
def create_migrations_dir (resolved : Except MigError UpPath) (fs : RootFs)
    (cwd : UpPath) : Except DbError UpPath :=
  match resolved with
  | .ok dir => .ok dir
  | .error _ =>
    match find_project_root fs cwd with
    | .ok root => .ok ("migrations" :: root)
    | .error e => .error e

/-- The ancestor-or-self chain of a directory, nearest first, ending at the
filesystem root. -/
def ancestorsS : UpPath → List UpPath
  | [] => [[]]
  | c :: parent => (c :: parent) :: ancestorsS parent

/-- Definition following the claim's words (C9): the project root is the
nearest directory, walking upward from the working directory, that contains
a recognized project-manifest marker file (diesel.toml or Cargo.toml). -/
def claimed_project_root (fs : RootFs) (p : UpPath) : Option UpPath :=
  if fs.isFile ("diesel.toml" :: p) || fs.isFile ("Cargo.toml" :: p) then
    some p
  else
    match p with
    | [] => none
    | _ :: parent => claimed_project_root fs parent

/- ### PathRelativizer (convert_absolute_path_to_relative) -/

/-- A path component, as std::path::Component distinguishes them: the root
directory, a parent-directory (..) segment, or a normal name. -/
inductive Component where
  | rootDir
  | parentDir
  | normal (s : String)
deriving DecidableEq, Repr

/-- The loop of `convert_absolute_path_to_relative` (main.rs lines 372-378),
with the base's components given in reverse order so that Path::parent is
List.tail (the empty path and the bare root have no parent): while the
target does not start with the base, move the base to its parent, counting
one `..` segment per step; when the base becomes a prefix, return the count
and the target's remaining suffix; when the base runs out of parents first,
return none (the escape hatch). -/
def relGoAux (target : List Component) (rb : List Component) :
    Option (Nat × List Component) :=
  if rb.reverse.isPrefixOf target then some (0, target.drop rb.length)
  else
    match rb with
    | [] => none
    | [Component.rootDir] => none
    | _ :: rest => (relGoAux target rest).map (fun x => (x.1 + 1, x.2))

/-- The relativization loop on a base path in source order. -/
def relGo (target base : List Component) : Option (Nat × List Component) :=
  relGoAux target base.reverse

/-- Embeds `convert_absolute_path_to_relative` (main.rs lines 369-381): the
prepended `..` segments joined with the target's suffix past the matched
prefix, or the target unchanged when the base ran out of parents first.
A total, pure function. -/
def convert_absolute_path_to_relative (target base : List Component) :
    List Component :=
  match relGo target base with
  | some (k, suffix) => List.replicate k Component.parentDir ++ suffix
  | none => target

/-- One step of lexical path normalization: a `..` segment cancels a
directly preceding normal component; everything else is appended. -/
def normStep (acc : List Component) (c : Component) : List Component :=
  match c with
  | .parentDir =>
    match acc.getLast? with
    | some (.normal _) => acc.dropLast
    | _ => acc ++ [c]
  | _ => acc ++ [c]

/-- Lexical normalization of a component list, left to right. -/
def normalizePath (cs : List Component) : List Component :=
  cs.foldl normStep []

/-- The ancestor-or-self chain of a base path under Path::parent, nearest
first, over the reversed representation. -/
def ancestorsCAux (rb : List Component) : List (List Component) :=
  rb.reverse ::
    (match rb with
     | [] => []
     | [Component.rootDir] => []
     | _ :: rest => ancestorsCAux rest)

/-- The ancestor-or-self chain of a base path in source order, nearest
first. -/
def ancestorsC (b : List Component) : List (List Component) :=
  ancestorsCAux b.reverse

/-- An absolute, well-formed path: the root followed by normal names. -/
def absPath (cs : List Component) : Prop :=
  ∃ ns : List String, cs = Component.rootDir :: ns.map Component.normal

/- ### Theorems -/

lemma digitChar_mod_isDigit (x : Nat) : (Nat.digitChar (x % 10)).isDigit = true := by
  have h : ∀ m, m < 10 → (Nat.digitChar m).isDigit = true := by decide
  exact h _ (Nat.mod_lt _ (by norm_num))

/-- C6: for every generate invocation, the migration version is the explicit
version text used verbatim when supplied (any string accepted), otherwise
the current UTC timestamp as a fixed-width 14-digit string YYYYMMDDHHMMSS;
the migration folder name is exactly version_migrationName with the
caller-supplied name unmodified. -/
theorem C6_version_allocation :
    (∀ (s : String) (now : UtcTime), migration_version (some s) now = s)
    ∧ (∀ now : UtcTime, (migration_version none now).length = 14
        ∧ allDigits (migration_version none now) = true)
    ∧ (∀ version migration_name : String,
        versioned_name version migration_name
          = version ++ "_" ++ migration_name) := by
  refine ⟨fun s now => rfl, fun now => ⟨rfl, ?_⟩, fun v n => rfl⟩
  simp [allDigits, migration_version, format_timestamp, digitChar_mod_isDigit]

/-- C2 counterexample: the claim says database setup finishes by invoking
the schema-sync guard, but the setup arm of run_database_command calls the
database-setup service and returns without ever invoking
regenerate_schema_if_file_specified. -/
theorem C2_counterexample :
    run_database_command .setup true
      = [.resolveMigrationsDir, .setupDatabase]
    ∧ CliEvent.schemaSyncGuard ∉ run_database_command .setup true := by
  decide

/-- C2 (amended): migration run, migration revert, migration redo and
database reset finish, on successful execution, by invoking the schema-sync
guard after the migration-execution call; database setup never invokes the
guard. -/
theorem C2_guard_after_mutating_commands :
    ((run_migration_command .run true).getLast? = some .schemaSyncGuard
      ∧ CliEvent.runPendingMigrations ∈ (run_migration_command .run true).dropLast)
    ∧ ((run_migration_command .revert true).getLast? = some .schemaSyncGuard
      ∧ CliEvent.revertLatestMigration
          ∈ (run_migration_command .revert true).dropLast)
    ∧ ((run_migration_command .redo true).getLast? = some .schemaSyncGuard
      ∧ CliEvent.redoLatestMigration
          ∈ (run_migration_command .redo true).dropLast)
    ∧ ((run_database_command .reset true).getLast? = some .schemaSyncGuard
      ∧ CliEvent.resetDatabase ∈ (run_database_command .reset true).dropLast)
    ∧ CliEvent.schemaSyncGuard ∉ run_database_command .setup true := by
  decide

/-- C4: on a transaction-capable backend, redo reverts the latest migration
(capturing the reverted version), reapplies exactly that version inside one
transaction, commits only when both steps succeed, and on a failure from
either step rolls back so the database is left in its pre-redo state. -/
theorem C4_redo_transactional :
    ∀ (σ : Type) (svc : ExecService σ) (backend : Backend) (db : σ),
      should_redo_migration_in_transaction backend = true →
      (∀ v db1 db2, svc.revertLatest db = (.ok v, db1) →
         svc.runMigrationWithVersion v db1 = (.ok (), db2) →
         redo_latest_migration svc backend db = (.ok (), db2))
      ∧ (∀ v db1 e db2, svc.revertLatest db = (.ok v, db1) →
         svc.runMigrationWithVersion v db1 = (.error e, db2) →
         redo_latest_migration svc backend db = (.error e, db))
      ∧ (∀ e db1, svc.revertLatest db = (.error e, db1) →
         redo_latest_migration svc backend db = (.error e, db)) := by
  intro σ svc backend db hcap
  refine ⟨?_, ?_, ?_⟩
  · intro v db1 db2 h1 h2
    simp [redo_latest_migration, hcap, transaction, migration_inner, h1, h2]
  · intro v db1 e db2 h1 h2
    simp [redo_latest_migration, hcap, transaction, migration_inner, h1, h2]
  · intro e db1 h1
    simp [redo_latest_migration, hcap, transaction, migration_inner, h1]

/-- C4 witness: a two-migration database with a succeeding service, redone
on the transaction-capable postgres backend, ends exactly where it started
with the latest version reapplied. -/
theorem C4_redo_transactional_witness :
    redo_latest_migration
      (⟨fun db => match db with
          | [] => (.error "nothing to revert", [])
          | v :: rest => (.ok v, rest),
        fun v db => (.ok (), v :: db)⟩ : ExecService (List String))
      .postgres ["m2", "m1"] = (.ok (), ["m2", "m1"]) :=
  (C4_redo_transactional _ _ .postgres _ rfl).1 "m2" ["m1"] ["m2", "m1"] rfl rfl

/-- C5: the transaction capability consulted by redo is true for every
backend except the MySQL family, where it is hard-coded false; on that
family the two calls execute with no wrapping transaction, so a failing
reapply leaves the migration set reverted but not reapplied. -/
theorem C5_transaction_capability :
    (∀ b : Backend,
       should_redo_migration_in_transaction b = true ↔ b ≠ Backend.mysql)
    ∧ (∀ (σ : Type) (svc : ExecService σ) (db : σ),
       redo_latest_migration svc Backend.mysql db = migration_inner svc db)
    ∧ (∀ (σ : Type) (svc : ExecService σ) (db : σ) v db1 e db2,
       svc.revertLatest db = (.ok v, db1) →
       svc.runMigrationWithVersion v db1 = (.error e, db2) →
       redo_latest_migration svc Backend.mysql db = (.error e, db2)) := by
  refine ⟨?_, ?_, ?_⟩
  · intro b; cases b <;> simp [should_redo_migration_in_transaction]
  · intro σ svc db
    simp [redo_latest_migration, should_redo_migration_in_transaction]
  · intro σ svc db v db1 e db2 h1 h2
    simp [redo_latest_migration, should_redo_migration_in_transaction,
      migration_inner, h1, h2]

/-- C5 witness: on the mysql backend a revert that succeeds followed by a
reapply that fails leaves the database in the reverted-but-not-reapplied
state (the reverted version is gone and nothing was rolled back). -/
theorem C5_transaction_capability_witness :
    redo_latest_migration
      (⟨fun db => match db with
          | [] => (.error "nothing to revert", [])
          | v :: rest => (.ok v, rest),
        fun _ db => (.error "apply failed", db)⟩ : ExecService (List String))
      .mysql ["m2", "m1"] = (.error "apply failed", ["m1"]) :=
  C5_transaction_capability.2.2 _ _ ["m2", "m1"] "m2" ["m1"] "apply failed"
    ["m1"] rfl rfl

lemma lookupFile_create_dir_all (fs : SchemaFs) (d p : PathS) :
    lookupFile (create_dir_all fs d) p = lookupFile fs p := rfl

/-- C1: in locked-schema mode with a configured schema file, the guard
renders a fresh snapshot into memory, reads the on-disk file fully,
byte-compares the two, fails with SchemaOutOfSync naming the target file
when they differ, succeeds when they agree, and never writes the target
file in locked mode. -/
theorem C1_locked_schema_guard :
    (∀ (cfg : Config) (path : PathS) (buf old_buf : ByteSeq) (fs : SchemaFs),
       cfg.printSchema.file = some path →
       lookupFile fs path = some old_buf →
       buf ≠ old_buf →
       (regenerate_schema_if_file_specified cfg true (.ok buf) fs).1
         = .error (.schemaOutOfSync path))
    ∧ (∀ (cfg : Config) (path : PathS) (buf old_buf : ByteSeq) (fs : SchemaFs),
       cfg.printSchema.file = some path →
       lookupFile fs path = some old_buf →
       buf = old_buf →
       (regenerate_schema_if_file_specified cfg true (.ok buf) fs).1 = .ok ())
    ∧ (∀ (cfg : Config) (render : Except SchemaError ByteSeq) (fs : SchemaFs)
         (p : PathS),
       lookupFile (regenerate_schema_if_file_specified cfg true render fs).2 p
         = lookupFile fs p) := by
  refine ⟨?_, ?_, ?_⟩
  · intro cfg path buf old_buf fs hfile hold hne
    have hb : (buf == old_buf) = false := beq_eq_false_iff_ne.mpr hne
    cases hp : parentDirOf path <;>
      simp [regenerate_schema_if_file_specified, hfile, hp,
        lookupFile_create_dir_all, hold, hb]
  · intro cfg path buf old_buf fs hfile hold heq
    subst heq
    cases hp : parentDirOf path <;>
      simp [regenerate_schema_if_file_specified, hfile, hp,
        lookupFile_create_dir_all, hold]
  · intro cfg render fs p
    cases hfile : cfg.printSchema.file with
    | none => simp [regenerate_schema_if_file_specified, hfile]
    | some path =>
      cases hp : parentDirOf path <;>
        cases render <;>
          simp [regenerate_schema_if_file_specified, hfile, hp,
            lookupFile_create_dir_all] <;>
        · cases hl : lookupFile fs path <;>
            simp [lookupFile_create_dir_all, hl] <;>
          split <;> simp [lookupFile_create_dir_all]

/-- C1 witness: a configured schema file holding bytes [1,2,3] checked in
locked mode against a freshly rendered [9] fails with SchemaOutOfSync
naming the file, and the on-disk bytes are untouched. -/
theorem C1_locked_schema_guard_witness :
    (regenerate_schema_if_file_specified ⟨⟨some ["out", "schema.rs"]⟩⟩ true
      (.ok [9]) ⟨[(["out", "schema.rs"], [1, 2, 3])], []⟩).1
      = .error (.schemaOutOfSync ["out", "schema.rs"])
    ∧ lookupFile
        (regenerate_schema_if_file_specified ⟨⟨some ["out", "schema.rs"]⟩⟩ true
          (.ok [9]) ⟨[(["out", "schema.rs"], [1, 2, 3])], []⟩).2
        ["out", "schema.rs"] = some [1, 2, 3] :=
  ⟨C1_locked_schema_guard.1 _ _ [9] [1, 2, 3] _ rfl rfl (by decide),
   (C1_locked_schema_guard.2.2 _ _ _ _).trans rfl⟩

/-- C10: in locked mode with a configured schema file missing on disk, the
guard fails with the propagated file-open error (not SchemaOutOfSync), and
in both modes the target's parent directory has been created before the
locked/unlocked branch runs. -/
theorem C10_locked_missing_file :
    (∀ (cfg : Config) (path : PathS) (buf : ByteSeq) (fs : SchemaFs),
       cfg.printSchema.file = some path →
       lookupFile fs path = none →
       (regenerate_schema_if_file_specified cfg true (.ok buf) fs).1
         = .error (.ioError path)
       ∧ ∀ q : PathS, SchemaError.ioError path ≠ SchemaError.schemaOutOfSync q)
    ∧ (∀ (cfg : Config) (path : PathS) (locked : Bool)
         (render : Except SchemaError ByteSeq) (fs : SchemaFs)
         (parent : PathS),
       cfg.printSchema.file = some path →
       parentDirOf path = some parent →
       parent ∈ ((regenerate_schema_if_file_specified cfg locked render fs).2).dirs) := by
  constructor
  · intro cfg path buf fs hfile hmiss
    refine ⟨?_, fun q h => SchemaError.noConfusion h⟩
    cases hp : parentDirOf path <;>
      simp [regenerate_schema_if_file_specified, hfile, hp,
        lookupFile_create_dir_all, hmiss]
  · intro cfg path locked render fs parent hfile hp
    cases locked with
    | false =>
      cases render <;>
        simp [regenerate_schema_if_file_specified, hfile, hp, writeFile,
          create_dir_all]
    | true =>
      cases render with
      | error e =>
        simp [regenerate_schema_if_file_specified, hfile, hp, create_dir_all]
      | ok buf =>
        simp only [regenerate_schema_if_file_specified, hfile, hp]
        cases hl : lookupFile (create_dir_all fs parent) path with
        | none => simp [hl, create_dir_all]
        | some old_buf =>
          simp only [hl]
          split
          · split <;> simp [create_dir_all]
          · next h => exact absurd trivial h

/-- C10 witness: with schema file out/schema.rs configured but absent, the
locked check fails with the file-open error, and the parent directory out
has been created in both the locked and the unlocked run. -/
theorem C10_locked_missing_file_witness :
    (regenerate_schema_if_file_specified ⟨⟨some ["out", "schema.rs"]⟩⟩ true
      (.ok [9]) ⟨[], []⟩).1 = .error (.ioError ["out", "schema.rs"])
    ∧ ["out"] ∈ ((regenerate_schema_if_file_specified
        ⟨⟨some ["out", "schema.rs"]⟩⟩ false (.ok [9]) ⟨[], []⟩).2).dirs :=
  ⟨(C10_locked_missing_file.1 ⟨⟨some ["out", "schema.rs"]⟩⟩
      ["out", "schema.rs"] [9] ⟨[], []⟩ rfl rfl).1,
   C10_locked_missing_file.2 ⟨⟨some ["out", "schema.rs"]⟩⟩
     ["out", "schema.rs"] false (.ok [9]) ⟨[], []⟩ ["out"] rfl rfl⟩

lemma migrations_dir_tier_result (ctx : MigCtx) (fs : MigFs) (dir : PathS)
    (h : ((migrations_dir_from_cli ctx.cliChain).orElse (fun _ => ctx.envDir)).orElse
      (fun _ => ctx.configDir) = some dir) :
    (migrations_dir ctx fs).result = .ok dir := by
  cases hrd : fs.readDirEntries with
  | none => simp [migrations_dir, h, hrd]
  | some es =>
    cases hf : es.find? (fun e => e.isFile && e.name == ".gitkeep") with
    | none => simp [migrations_dir, h, hrd, hf]
    | some e =>
      cases hrm : fs.removeOk <;> simp [migrations_dir, h, hrd, hf, hrm]

/-- C8: after the migrations directory is resolved through tiers 1-3 (not
through the fallback search), a readable directory containing a .gitkeep
file has it deleted; a deletion failure is only a warning and is never
propagated — resolution still returns the directory successfully. -/
theorem C8_gitkeep_cleanup :
    ∀ (ctx : MigCtx) (fs : MigFs) (dir : PathS),
      ((migrations_dir_from_cli ctx.cliChain).orElse (fun _ => ctx.envDir)).orElse
        (fun _ => ctx.configDir) = some dir →
      (migrations_dir ctx fs).result = .ok dir
      ∧ (∀ es, fs.readDirEntries = some es →
          (es.find? (fun e => e.isFile && e.name == ".gitkeep")).isSome = true →
          (migrations_dir ctx fs).deletedGitkeep = fs.removeOk
          ∧ (fs.removeOk = false → (migrations_dir ctx fs).warnings ≠ [])) := by
  intro ctx fs dir h
  refine ⟨migrations_dir_tier_result ctx fs dir h, ?_⟩
  intro es hes hfind
  obtain ⟨e, hfe⟩ := Option.isSome_iff_exists.mp hfind
  cases hrm : fs.removeOk with
  | true =>
    exact ⟨by simp [migrations_dir, h, hes, hfe, hrm],
           fun hno => Bool.noConfusion hno⟩
  | false =>
    exact ⟨by simp [migrations_dir, h, hes, hfe, hrm],
           fun _ => by simp [migrations_dir, h, hes, hfe, hrm]⟩

/-- C8 witness: a CLI-resolved directory whose listing holds a .gitkeep
regular file, with a failing remove_file, still resolves successfully with
a warning and no deletion. -/
theorem C8_gitkeep_cleanup_witness :
    (migrations_dir
      ⟨[some ["migrations"]], none, none, .error .directoryNotFound⟩
      ⟨some [⟨".gitkeep", true⟩], false⟩).result = .ok ["migrations"]
    ∧ (migrations_dir
        ⟨[some ["migrations"]], none, none, .error .directoryNotFound⟩
        ⟨some [⟨".gitkeep", true⟩], false⟩).deletedGitkeep = false
    ∧ (migrations_dir
        ⟨[some ["migrations"]], none, none, .error .directoryNotFound⟩
        ⟨some [⟨".gitkeep", true⟩], false⟩).warnings ≠ [] :=
  ⟨(C8_gitkeep_cleanup
      ⟨[some ["migrations"]], none, none, .error .directoryNotFound⟩
      ⟨some [⟨".gitkeep", true⟩], false⟩ ["migrations"] rfl).1,
   ((C8_gitkeep_cleanup
      ⟨[some ["migrations"]], none, none, .error .directoryNotFound⟩
      ⟨some [⟨".gitkeep", true⟩], false⟩ ["migrations"] rfl).2
      [⟨".gitkeep", true⟩] rfl (by decide)).1,
   ((C8_gitkeep_cleanup
      ⟨[some ["migrations"]], none, none, .error .directoryNotFound⟩
      ⟨some [⟨".gitkeep", true⟩], false⟩ ["migrations"] rfl).2
      [⟨".gitkeep", true⟩] rfl (by decide)).2 rfl⟩

/-- C3 counterexample: when both the level where resolution starts and the
deeper invoked subcommand supply distinct explicit directories, the code
returns the outer level's path, while the claim (innermost wins) demands
the deeper one. -/
theorem C3_counterexample :
    migrations_dir_from_cli [some ["parentdir"], some ["leafdir"]]
      = some ["parentdir"]
    ∧ claimed_cli_dir [some ["parentdir"], some ["leafdir"]]
      = some ["leafdir"]
    ∧ (migrations_dir
        ⟨[some ["parentdir"], some ["leafdir"]], none, none,
          .error .directoryNotFound⟩
        ⟨none, true⟩).result = .ok ["parentdir"]
    ∧ migrations_dir_from_cli [some ["parentdir"], some ["leafdir"]]
        ≠ claimed_cli_dir [some ["parentdir"], some ["leafdir"]] := by
  decide

/-- C3 (amended): the migrations directory is resolved by a first-match-wins
cascade in which the explicit CLI directory — taken from the subcommand
level where resolution starts, or from the nearest deeper invoked
subcommand that specifies one (outermost-first recursive lookup) — wins
over the MIGRATION_DIRECTORY environment variable, which wins over the
config's migrations_directory field, which wins over the external fallback
search. -/
theorem C3_resolution_cascade :
    ∀ (ctx : MigCtx) (fs : MigFs),
      (∀ p, migrations_dir_from_cli ctx.cliChain = some p →
         (migrations_dir ctx fs).result = .ok p)
      ∧ (migrations_dir_from_cli ctx.cliChain = none →
         ∀ p, ctx.envDir = some p → (migrations_dir ctx fs).result = .ok p)
      ∧ (migrations_dir_from_cli ctx.cliChain = none → ctx.envDir = none →
         ∀ p, ctx.configDir = some p → (migrations_dir ctx fs).result = .ok p)
      ∧ (migrations_dir_from_cli ctx.cliChain = none → ctx.envDir = none →
         ctx.configDir = none → (migrations_dir ctx fs).result = ctx.fallback)
      ∧ (∀ p rest, ctx.cliChain = some p :: rest →
         migrations_dir_from_cli ctx.cliChain = some p)
      ∧ (∀ rest, ctx.cliChain = none :: rest →
         migrations_dir_from_cli ctx.cliChain = migrations_dir_from_cli rest) := by
  intro ctx fs
  refine ⟨?_, ?_, ?_, ?_, ?_, ?_⟩
  · intro p h
    exact migrations_dir_tier_result ctx fs p (by simp [h, Option.orElse])
  · intro hcli p henv
    exact migrations_dir_tier_result ctx fs p
      (by simp [hcli, henv, Option.orElse])
  · intro hcli henv p hcfg
    exact migrations_dir_tier_result ctx fs p
      (by simp [hcli, henv, hcfg, Option.orElse])
  · intro hcli henv hcfg
    simp [migrations_dir, hcli, henv, hcfg, Option.orElse]
  · intro p rest h
    rw [h]
    simp [migrations_dir_from_cli, Option.orElse]
  · intro rest h
    rw [h]
    simp [migrations_dir_from_cli, Option.orElse]

/-- C3 witness: with no CLI directory anywhere in the chain the environment
variable wins over a populated config field; with a CLI directory deeper in
the chain and the environment also set, the CLI directory wins. -/
theorem C3_resolution_cascade_witness :
    (migrations_dir
      ⟨[none], some ["envdir"], some ["cfgdir"], .error .directoryNotFound⟩
      ⟨none, true⟩).result = .ok ["envdir"]
    ∧ (migrations_dir
        ⟨[none, some ["clidir"]], some ["envdir"], none,
          .error .directoryNotFound⟩
        ⟨none, true⟩).result = .ok ["clidir"] :=
  ⟨(C3_resolution_cascade
      ⟨[none], some ["envdir"], some ["cfgdir"], .error .directoryNotFound⟩
      ⟨none, true⟩).2.1 rfl ["envdir"] rfl,
   (C3_resolution_cascade
      ⟨[none, some ["clidir"]], some ["envdir"], none,
        .error .directoryNotFound⟩
      ⟨none, true⟩).1 ["clidir"] rfl⟩

lemma search_characterization (fs : RootFs) (file : String) :
    ∀ p : UpPath, search_for_directory_containing_file fs p file
      = match (ancestorsS p).find? (fun a => fs.isFile (file :: a)) with
        | some root => .ok root
        | none => .error (.projectRootNotFound p) := by
  intro p
  induction p with
  | nil =>
    cases h : fs.isFile (file :: ([] : UpPath)) <;>
      simp [search_for_directory_containing_file, ancestorsS, List.find?, h]
  | cons c parent ih =>
    cases h : fs.isFile (file :: (c :: parent)) with
    | true =>
      simp [search_for_directory_containing_file, ancestorsS, List.find?, h]
    | false =>
      simp only [search_for_directory_containing_file, h, Bool.false_eq_true,
        if_false, ancestorsS, List.find?, ih]
      cases hf : (ancestorsS parent).find? (fun a => fs.isFile (file :: a)) <;>
        simp [hf]

/-- C9 counterexample: with Cargo.toml in the working directory /a/b and
diesel.toml in /a, the code's project root is /a (diesel.toml searched
first across the whole ancestor chain), while the claim's nearest directory
containing a recognized marker is /a/b itself.  Paths list components
innermost-first. -/
theorem C9_counterexample :
    find_project_root
      ⟨fun p => p == ["Cargo.toml", "b", "a"] || p == ["diesel.toml", "a"]⟩
      ["b", "a"] = .ok ["a"]
    ∧ claimed_project_root
        ⟨fun p => p == ["Cargo.toml", "b", "a"] || p == ["diesel.toml", "a"]⟩
        ["b", "a"] = some ["b", "a"]
    ∧ (Except.ok ["a"] : Except DbError UpPath) ≠ .ok ["b", "a"] := by
  decide

/-- C9 (amended): when the directory cascade fails, the setup flow creates
project-root/migrations, where the project root is the nearest ancestor of
the working directory containing diesel.toml, or — only when no ancestor
holds diesel.toml — the nearest ancestor containing Cargo.toml; when
neither marker exists anywhere up to the filesystem root the operation
fails with ProjectRootNotFound. -/
theorem C9_project_root_fallback :
    (∀ (fs : RootFs) (file : String) (p : UpPath),
       search_for_directory_containing_file fs p file
         = match (ancestorsS p).find? (fun a => fs.isFile (file :: a)) with
           | some root => .ok root
           | none => .error (.projectRootNotFound p))
    ∧ (∀ (res : Except MigError UpPath) (e : MigError) (fs : RootFs)
         (cwd root : UpPath), res = .error e →
         find_project_root fs cwd = .ok root →
         create_migrations_dir res fs cwd = .ok ("migrations" :: root))
    ∧ (∀ (fs : RootFs) (cwd root : UpPath),
         search_for_directory_containing_file fs cwd "diesel.toml" = .ok root →
         find_project_root fs cwd = .ok root)
    ∧ (∀ (fs : RootFs) (cwd : UpPath) (e : DbError),
         search_for_directory_containing_file fs cwd "diesel.toml" = .error e →
         find_project_root fs cwd
           = search_for_directory_containing_file fs cwd "Cargo.toml")
    ∧ (∀ (res : Except MigError UpPath) (e : MigError) (fs : RootFs)
         (cwd : UpPath),
         res = .error e →
         (∀ a ∈ ancestorsS cwd, fs.isFile ("diesel.toml" :: a) = false
            ∧ fs.isFile ("Cargo.toml" :: a) = false) →
         create_migrations_dir res fs cwd
           = .error (.projectRootNotFound cwd)) := by
  refine ⟨fun fs file p => search_characterization fs file p, ?_, ?_, ?_, ?_⟩
  · intro res e fs cwd root hres hroot
    subst hres
    simp [create_migrations_dir, hroot]
  · intro fs cwd root h
    simp [find_project_root, h]
  · intro fs cwd e h
    simp [find_project_root, h]
  · intro res e fs cwd hres hmark
    subst hres
    have hd : (ancestorsS cwd).find?
        (fun a => fs.isFile ("diesel.toml" :: a)) = none :=
      List.find?_eq_none.mpr (fun a ha => by simp [(hmark a ha).1])
    have hc : (ancestorsS cwd).find?
        (fun a => fs.isFile ("Cargo.toml" :: a)) = none :=
      List.find?_eq_none.mpr (fun a ha => by simp [(hmark a ha).2])
    have h1 := search_characterization fs "diesel.toml" cwd
    have h2 := search_characterization fs "Cargo.toml" cwd
    rw [hd] at h1
    rw [hc] at h2
    simp [create_migrations_dir, find_project_root, h1, h2]

/-- C9 witness: with Cargo.toml at the filesystem root and nothing else, a
failed cascade for working directory /a/b yields /migrations; with no
marker anywhere, the same flow fails with ProjectRootNotFound for /a/b. -/
theorem C9_project_root_fallback_witness :
    create_migrations_dir (.error .directoryNotFound)
      ⟨fun p => p == ["Cargo.toml"]⟩ ["b", "a"] = .ok ["migrations"]
    ∧ create_migrations_dir (.error .directoryNotFound)
        ⟨fun _ => false⟩ ["b", "a"]
        = .error (.projectRootNotFound ["b", "a"]) :=
  ⟨C9_project_root_fallback.2.1 (.error .directoryNotFound) .directoryNotFound
     ⟨fun p => p == ["Cargo.toml"]⟩ ["b", "a"] [] rfl (by decide),
   C9_project_root_fallback.2.2.2.2 (.error .directoryNotFound)
     .directoryNotFound ⟨fun _ => false⟩ ["b", "a"] rfl (by decide)⟩

lemma normStep_not_parent (acc : List Component) (c : Component)
    (h : c ≠ Component.parentDir) : normStep acc c = acc ++ [c] := by
  cases c with
  | rootDir => rfl
  | parentDir => exact absurd rfl h
  | normal s => rfl

lemma normStep_normal (acc : List Component) (s : String) :
    normStep acc (Component.normal s) = acc ++ [Component.normal s] := rfl

lemma normStep_pop (acc : List Component) (s : String) :
    normStep (acc ++ [Component.normal s]) Component.parentDir = acc := by
  simp [normStep, List.getLast?_concat, List.dropLast_concat]

lemma foldl_normStep_no_parent :
    ∀ (cs acc : List Component), (∀ c ∈ cs, c ≠ Component.parentDir) →
      List.foldl normStep acc cs = acc ++ cs := by
  intro cs
  induction cs with
  | nil => intro acc _; simp
  | cons c rest ih =>
    intro acc h
    rw [List.foldl_cons, normStep_not_parent acc c (h c (List.mem_cons_self c rest)),
      ih (acc ++ [c]) (fun x hx => h x (List.mem_cons_of_mem c hx))]
    simp

lemma absPath_no_parent (cs : List Component) (h : absPath cs) :
    ∀ c ∈ cs, c ≠ Component.parentDir := by
  obtain ⟨ns, rfl⟩ := h
  intro c hc
  rcases List.mem_cons.mp hc with rfl | hc
  · exact fun h' => Component.noConfusion h'
  · obtain ⟨s, _, rfl⟩ := List.mem_map.mp hc
    exact fun h' => Component.noConfusion h'

lemma normalizePath_of_no_parent (cs : List Component)
    (h : ∀ c ∈ cs, c ≠ Component.parentDir) : normalizePath cs = cs := by
  unfold normalizePath
  rw [foldl_normStep_no_parent cs [] h]
  simp

lemma foldl_normStep_cancel (A B : List Component) (n : String) :
    List.foldl normStep []
      ((A ++ [Component.normal n]) ++ (Component.parentDir :: B))
      = List.foldl normStep [] (A ++ B) := by
  have h1 : List.foldl normStep [] (A ++ [Component.normal n])
      = (List.foldl normStep [] A) ++ [Component.normal n] := by
    rw [List.foldl_append, List.foldl_cons, List.foldl_nil, normStep_normal]
  rw [List.foldl_append, h1, List.foldl_cons, normStep_pop,
    ← List.foldl_append]

lemma relGoAux_roundtrip :
    ∀ (rb target : List Component) (k : Nat) (suffix : List Component),
      (∃ ns : List String, rb = ns.map Component.normal ++ [Component.rootDir]) →
      absPath target →
      relGoAux target rb = some (k, suffix) →
      normalizePath (rb.reverse ++ (List.replicate k Component.parentDir ++ suffix))
        = target := by
  intro rb
  induction rb with
  | nil =>
    rintro target k suffix ⟨ns, hns⟩ _ _
    exact absurd hns (by simp)
  | cons c rest ih =>
    rintro target k suffix ⟨ns, hns⟩ htgt hrel
    by_cases hpre : ((c :: rest).reverse).isPrefixOf target = true
    · rw [relGoAux.eq_def, if_pos hpre] at hrel
      injection hrel with hpair
      injection hpair with h1 h2
      subst h1
      subst h2
      obtain ⟨t, ht⟩ := List.isPrefixOf_iff_prefix.mp hpre
      subst ht
      have hlen : (c :: rest).length = ((c :: rest).reverse).length :=
        (List.length_reverse _).symm
      rw [List.replicate, List.nil_append, hlen, List.drop_left]
      exact normalizePath_of_no_parent _ (absPath_no_parent _ htgt)
    · rw [relGoAux.eq_def, if_neg hpre] at hrel
      cases ns with
      | nil =>
        simp only [List.map_nil, List.nil_append] at hns
        obtain ⟨rfl, rfl⟩ : c = Component.rootDir ∧ rest = [] := by
          cases hns; exact ⟨rfl, rfl⟩
        exfalso
        apply hpre
        obtain ⟨ts, rfl⟩ := htgt
        exact List.isPrefixOf_iff_prefix.mpr ⟨ts.map Component.normal, by simp⟩
      | cons n ns' =>
        simp only [List.map_cons, List.cons_append] at hns
        obtain ⟨rfl, rfl⟩ : c = Component.normal n
            ∧ rest = ns'.map Component.normal ++ [Component.rootDir] := by
          cases hns; exact ⟨rfl, rfl⟩
        have hrel' :
            (relGoAux target
              (ns'.map Component.normal ++ [Component.rootDir])).map
              (fun x => (x.1 + 1, x.2)) = some (k, suffix) := hrel
        obtain ⟨⟨k', s'⟩, hrg, heq⟩ := Option.map_eq_some'.mp hrel'
        injection heq with h1 h2
        subst h1
        subst h2
        have ihres := ih target k' s' ⟨ns', rfl⟩ htgt hrg
        rw [List.reverse_cons, List.replicate_succ, List.cons_append]
        unfold normalizePath
        rw [foldl_normStep_cancel]
        exact ihres

lemma relGoAux_isSome :
    ∀ (rb target : List Component),
      (∃ ns : List String, rb = ns.map Component.normal ++ [Component.rootDir]) →
      absPath target →
      (relGoAux target rb).isSome = true := by
  intro rb
  induction rb with
  | nil =>
    rintro target ⟨ns, hns⟩ _
    exact absurd hns (by simp)
  | cons c rest ih =>
    rintro target ⟨ns, hns⟩ htgt
    by_cases hpre : ((c :: rest).reverse).isPrefixOf target = true
    · rw [relGoAux.eq_def, if_pos hpre]
      rfl
    · rw [relGoAux.eq_def, if_neg hpre]
      cases ns with
      | nil =>
        simp only [List.map_nil, List.nil_append] at hns
        obtain ⟨rfl, rfl⟩ : c = Component.rootDir ∧ rest = [] := by
          cases hns; exact ⟨rfl, rfl⟩
        exfalso
        apply hpre
        obtain ⟨ts, rfl⟩ := htgt
        exact List.isPrefixOf_iff_prefix.mpr ⟨ts.map Component.normal, by simp⟩
      | cons n ns' =>
        simp only [List.map_cons, List.cons_append] at hns
        obtain ⟨rfl, rfl⟩ : c = Component.normal n
            ∧ rest = ns'.map Component.normal ++ [Component.rootDir] := by
          cases hns; exact ⟨rfl, rfl⟩
        have h := ih target ⟨ns', rfl⟩ htgt
        show ((relGoAux target
          (ns'.map Component.normal ++ [Component.rootDir])).map
          (fun x => (x.1 + 1, x.2))).isSome = true
        cases hx : relGoAux target
            (ns'.map Component.normal ++ [Component.rootDir]) with
        | none => rw [hx] at h; exact absurd h (by simp)
        | some v => rfl

lemma relGoAux_escape :
    ∀ (rb target : List Component),
      (∀ a ∈ ancestorsCAux rb, ¬ (a.isPrefixOf target = true)) →
      relGoAux target rb = none := by
  intro rb
  induction rb with
  | nil =>
    intro target h
    exact absurd
      (show List.isPrefixOf ([] : List Component) target = true by
        cases target <;> rfl)
      (h [] (by simp [ancestorsCAux]))
  | cons c rest ih =>
    intro target h
    have hhead : ¬ (((c :: rest).reverse).isPrefixOf target = true) :=
      h _ (by rw [ancestorsCAux.eq_def]; exact List.mem_cons_self _ _)
    rw [relGoAux.eq_def, if_neg hhead]
    cases c with
    | rootDir =>
      cases rest with
      | nil => rfl
      | cons c2 r2 =>
        show (relGoAux target (c2 :: r2)).map (fun x => (x.1 + 1, x.2)) = none
        rw [ih target (fun a ha => h a (List.mem_cons_of_mem _ ha))]
        rfl
    | parentDir =>
      show (relGoAux target rest).map (fun x => (x.1 + 1, x.2)) = none
      rw [ih target (fun a ha => h a (List.mem_cons_of_mem _ ha))]
      rfl
    | normal s =>
      show (relGoAux target rest).map (fun x => (x.1 + 1, x.2)) = none
      rw [ih target (fun a ha => h a (List.mem_cons_of_mem _ ha))]
      rfl

/-- C7: for absolute well-formed paths, joining the relativized path onto
the base and lexically normalizing yields the target; and whenever no
ancestor-or-self of the base (the chain Path::parent walks) is a prefix of
the target — the case where the base runs out of parents before a prefix
match — the function returns the target unchanged.  The embedding is a
total pure function, so it never fails. -/
theorem C7_relativize_roundtrip :
    (∀ target base : List Component, absPath target → absPath base →
       normalizePath (base ++ convert_absolute_path_to_relative target base)
         = target)
    ∧ (∀ target base : List Component,
       (∀ a ∈ ancestorsC base, ¬ (a.isPrefixOf target = true)) →
       convert_absolute_path_to_relative target base = target) := by
  constructor
  · intro target base htgt hbase
    have hrev : ∃ ns : List String,
        base.reverse = ns.map Component.normal ++ [Component.rootDir] := by
      obtain ⟨ns, rfl⟩ := hbase
      exact ⟨ns.reverse, by simp⟩
    have hs := relGoAux_isSome base.reverse target hrev htgt
    obtain ⟨⟨k, suffix⟩, hk⟩ := Option.isSome_iff_exists.mp hs
    have hrt := relGoAux_roundtrip base.reverse target k suffix hrev htgt hk
    rw [List.reverse_reverse] at hrt
    unfold convert_absolute_path_to_relative relGo
    rw [hk]
    exact hrt
  · intro target base h
    have he : relGoAux target base.reverse = none :=
      relGoAux_escape base.reverse target h
    unfold convert_absolute_path_to_relative relGo
    rw [he]

/-- C7 witness: relativizing /a/x against base /b and joining back onto /b
normalizes to /a/x; for the relative target x against the parentless base /
the function returns the target unchanged. -/
theorem C7_relativize_roundtrip_witness :
    normalizePath
      ([Component.rootDir, Component.normal "b"] ++
        convert_absolute_path_to_relative
          [Component.rootDir, Component.normal "a", Component.normal "x"]
          [Component.rootDir, Component.normal "b"])
      = [Component.rootDir, Component.normal "a", Component.normal "x"]
    ∧ convert_absolute_path_to_relative [Component.normal "x"]
        [Component.rootDir] = [Component.normal "x"] :=
  ⟨C7_relativize_roundtrip.1 _ _ ⟨["a", "x"], rfl⟩ ⟨["b"], rfl⟩,
   C7_relativize_roundtrip.2 _ _ (by decide)⟩
